import Mathlib

/-!
Verification of the layout engine and surrounding glue of the docx-to-pdf
converter in `src/main.rs`, against its natural-language specification.

The embedding is shallow: millimetre values (`f32` in the source) are
modelled as rationals, the mutable `y_position` / current-page state of
`create_pdf` is threaded explicitly as a `LayoutState`, and each
`use_text` / `add_to_layer` call is recorded as an emitted placement
command.  External collaborators (filesystem existence, zip archive
contents, image decoding) are parameters of the functions that consume
them.  Every definition follows the corresponding source code line by
line; the few spec-side definitions used for comparison are named with a
`_spec` suffix or documented as such.
-/

namespace WordPdf

/-- Font variant chosen for a run (`regular_font` / `bold_font` /
`italic_font` in `create_pdf`). -/
inductive FontStyle
  | regular
  | bold
  | italic
deriving DecidableEq

/-- The run property matched by `create_pdf` (`RunProperty::Bold`,
`RunProperty::Italic`, catch-all `_`). -/
inductive RunProperty
  | bold
  | italic
  | other
deriving DecidableEq

/-- A styled text run (`Run::Text { content, properties }`). -/
structure TextRun where
  content : String
  property : RunProperty
deriving DecidableEq

/-- A paragraph: an ordered list of runs (`paragraph.runs`). -/
structure Paragraph where
  runs : List TextRun
deriving DecidableEq

/-- A document child: the `match child` in `create_pdf` handles
`DocumentChild::Paragraph` and ignores everything else (`_ => {}`). -/
inductive DocumentChild
  | paragraph (p : Paragraph)
  | other
deriving DecidableEq

/-- An extracted image with its pixel dimensions (`img.dimensions()`;
`to_rgb8` preserves dimensions, so one width/height pair suffices). -/
structure ImageAsset where
  name : String
  width : Nat
  height : Nat
deriving DecidableEq

/-- The `Config` struct of the source. -/
structure Config where
  input_path : String
  output_path : String
  page_width : ℚ
  page_height : ℚ
  margin : ℚ
deriving DecidableEq

/-- `Config::new`: stores the two paths and the fixed A4 geometry. -/
def Config.new (input output : String) : Config :=
  { input_path := input, output_path := output,
    page_width := 210, page_height := 297, margin := 20 }

/-- A placement command: one `use_text` call or one `add_to_layer` call,
together with the page it lands on. -/
inductive Cmd
  | textLine (page : Nat) (x y : ℚ) (font : FontStyle) (text : String)
  | imagePlacement (page : Nat) (x y scale : ℚ) (name : String)
deriving DecidableEq

/-- Page index carried by a command. -/
def Cmd.page : Cmd → Nat
  | Cmd.textLine p _ _ _ _ => p
  | Cmd.imagePlacement p _ _ _ _ => p

/-- The y coordinate carried by a command. -/
def Cmd.yPos : Cmd → ℚ
  | Cmd.textLine _ _ y _ _ => y
  | Cmd.imagePlacement _ _ y _ _ => y

/-- The mutable state of `create_pdf`: current page, `y_position`, and the
commands emitted so far (in emission order). -/
structure LayoutState where
  page : Nat
  y : ℚ
  cmds : List Cmd
deriving DecidableEq

/-- `let line_height = 12.0`. -/
def line_height : ℚ := 12

/-- Helper for `splitWords`; accumulates the current word reversed. -/
def splitWordsAux : List Char → List Char → List String
  | [], acc => if acc = [] then [] else [String.mk acc.reverse]
  | c :: cs, acc =>
    if c.isWhitespace then
      (if acc = [] then [] else [String.mk acc.reverse]) ++ splitWordsAux cs []
    else splitWordsAux cs (c :: acc)

/-- Model of Rust's `str::split_whitespace` (used as
`content.split_whitespace()`): split on whitespace, dropping empty
pieces. -/
def splitWords (s : String) : List String := splitWordsAux s.data []

/-- The page-break block, identical at both sites in the source:
`doc.add_page(...)` followed by
`y_position = config.page_height - config.margin`. -/
def addPage (cfg : Config) (st : LayoutState) : LayoutState :=
  { st with page := st.page + 1, y := cfg.page_height - cfg.margin }

/-- The mid-loop flush of the word loop: the source emits the buffered
line at `Mm(config.margin), Mm(config.page_height - y_position)` and then
decrements `y_position` by `line_height`. -/
def flushMid (cfg : Config) (font : FontStyle) (line : String) (st : LayoutState) :
    LayoutState :=
  { st with
    cmds := st.cmds ++
      [Cmd.textLine st.page cfg.margin (cfg.page_height - st.y) font line],
    y := st.y - line_height }

/-- The `if y_position < config.margin` page-break check that follows the
mid-loop flush. -/
def breakCheck (cfg : Config) (st : LayoutState) : LayoutState :=
  if st.y < cfg.margin then addPage cfg st else st

/-- The `for word in words` loop of `create_pdf`.  Returns the remaining
line buffer and the advanced state.  Note the order in the source: flush,
cursor decrement, and only then the page-break check. -/
def processWords (cfg : Config) (font : FontStyle) :
    List String → String → LayoutState → String × LayoutState
  | [], line, st => (line, st)
  | w :: ws, line, st =>
    if line.length + w.length < 80 then
      processWords cfg font ws (line ++ w ++ " ") st
    else
      processWords cfg font ws (w ++ " ") (breakCheck cfg (flushMid cfg font line st))

/-- The `if !current_line.is_empty()` block after the word loop: the
remaining buffer is emitted at `Mm(y_position)` and `y_position` is
decremented by `line_height`. -/
def finalFlush (cfg : Config) (font : FontStyle) (line : String) (st : LayoutState) :
    LayoutState :=
  if line = "" then st
  else
    { st with
      cmds := st.cmds ++ [Cmd.textLine st.page cfg.margin st.y font line],
      y := st.y - line_height }

/-- Font selection: `RunProperty::Bold => bold_font, RunProperty::Italic =>
italic_font, _ => regular_font`. -/
def fontFor : RunProperty → FontStyle
  | RunProperty.bold => FontStyle.bold
  | RunProperty.italic => FontStyle.italic
  | _ => FontStyle.regular

/-- Processing of one run inside the `for run in &paragraph.runs` loop. -/
def processRun (cfg : Config) (st : LayoutState) (r : TextRun) : LayoutState :=
  let font := fontFor r.property
  let res := processWords cfg font (splitWords r.content) "" st
  finalFlush cfg font res.1 res.2

/-- Processing of one paragraph: all runs, then the extra
`y_position -= line_height` that separates paragraphs. -/
def processParagraph (cfg : Config) (st : LayoutState) (p : Paragraph) : LayoutState :=
  let st1 := p.runs.foldl (processRun cfg) st
  { st1 with y := st1.y - line_height }

/-- One iteration of the `for child in children` loop. -/
def processChild (cfg : Config) (st : LayoutState) : DocumentChild → LayoutState
  | DocumentChild.paragraph p => processParagraph cfg st p
  | DocumentChild.other => st

/-- One iteration of the `for (name, img) in images` loop: page-break
check against the fixed `config.margin + 50+0` threshold, then scale
computation, placement at `(margin, y_position - scaled_height)`, and the
`y_position -= scaled_height + 10.0` advance. -/
def processImage (cfg : Config) (st : LayoutState) (img : ImageAsset) : LayoutState :=
  let st1 := if st.y < cfg.margin + (50 + 0) then addPage cfg st else st
  let scale := (cfg.page_width - 2 * cfg.margin) / (img.width : ℚ)
  let scaled_height := (img.height : ℚ) * scale
  { st1 with
    cmds := st1.cmds ++
      [Cmd.imagePlacement st1.page cfg.margin (st1.y - scaled_height) scale img.name],
    y := st1.y - (scaled_height + 10) }

/-- Initial layout state of `create_pdf`: first page, `y_position =
config.page_height - config.margin`, nothing emitted. -/
def initState (cfg : Config) : LayoutState :=
  { page := 0, y := cfg.page_height - cfg.margin, cmds := [] }

/-- State after the document-content loop of `create_pdf` (all paragraphs
laid out, images not yet placed). -/
def textState (cfg : Config) (children : List DocumentChild) : LayoutState :=
  children.foldl (processChild cfg) (initState cfg)

/-- The full command sequence emitted by `create_pdf`: the paragraph pass
followed by the image pass, which continues from the paragraph pass's
final state. -/
def create_pdf (cfg : Config) (children : List DocumentChild) (images : List ImageAsset) :
    List Cmd :=
  (images.foldl (processImage cfg) (textState cfg children)).cmds

/-- Spec-side name: the printable width `page_width_mm - 2*margin_mm`. -/
def printable_width (cfg : Config) : ℚ := cfg.page_width - 2 * cfg.margin

/-- Spec-side name: the uniform image scale
`printable_width_mm / pixel_width`. -/
def image_scale (cfg : Config) (img : ImageAsset) : ℚ :=
  printable_width cfg / (img.width : ℚ)

/-- Spec-side name: the scaled image height `pixel_height * scale`. -/
def image_scaled_height (cfg : Config) (img : ImageAsset) : ℚ :=
  (img.height : ℚ) * image_scale cfg img

/-- The cursor the image loop actually places from: the incoming cursor,
unless the fixed-threshold page break fired, in which case the fresh-page
cursor. -/
def postCheckY (cfg : Config) (st : LayoutState) : ℚ :=
  if st.y < cfg.margin + 50 then cfg.page_height - cfg.margin else st.y

/-- Model of Rust's `str::ends_with` (used as
`config.input_path.ends_with(".docx")`): the pattern is a suffix of the
string. -/
def ends_with (s pat : String) : Bool := pat.data.isSuffixOf s.data

/-- Outcome of the argument / input validation prelude of `main`. -/
inductive MainOutcome
  | usage
  | invalidInput
  | proceed (cfg : Config)
deriving DecidableEq

/-- The validation prelude of `main`: `args.len() != 3` prints usage and
exits with status 1 (`usage`); a missing file or a path not ending in
`.docx` yields `ConversionError::InvalidInput` (`invalidInput`), both
before any document is read or parsed.  Filesystem existence is the
`pathExists` parameter. -/
def mainCheck (args : List String) (pathExists : String → Bool) : MainOutcome :=
  if args.length ≠ 3 then MainOutcome.usage
  else
    let cfg := Config.new (args.getD 1 "") (args.getD 2 "")
    if !(pathExists cfg.input_path) || !(ends_with cfg.input_path ".docx") then
      MainOutcome.invalidInput
    else MainOutcome.proceed cfg

/-- A zip archive entry as seen by `extract_images`: its name and raw
bytes. -/
structure ZipEntry where
  name : String
  bytes : List Nat
deriving DecidableEq

/-- The body of the `for i in 0..archive.len()` loop of `extract_images`:
entries under `word/media` are decoded (`image::load_from_memory`,
modelled by the `decode` parameter) and appended; failures are skipped. -/
def extractStep {α : Type} (decode : List Nat → Option α)
    (images : List (String × α)) (e : ZipEntry) : List (String × α) :=
  if e.name.startsWith "word/media" then
    match decode e.bytes with
    | some img => images ++ [(e.name, img)]
    | none => images
  else images

/-- `extract_images`: fold of `extractStep` over the archive entries in
index order. -/
def extract_images {α : Type} (decode : List Nat → Option α)
    (entries : List ZipEntry) : List (String × α) :=
  entries.foldl (extractStep decode) []

/-- Spec-side description of image extraction: keep exactly the entries
under the `word/media` prefix, in archive order, dropping those whose
bytes do not decode. -/
def extract_images_spec {α : Type} (decode : List Nat → Option α)
    (entries : List ZipEntry) : List (String × α) :=
  (entries.filter (fun e => e.name.startsWith "word/media")).filterMap
    (fun e => (decode e.bytes).map (fun img => (e.name, img)))

/-- The configuration every invocation runs with (geometry from
`Config::new`). -/
def cfg0 : Config := Config.new "input.docx" "output.pdf"

/-- The document of the spec's scenario: one paragraph with the single
run `"Hello world"`. -/
def helloDoc : List DocumentChild :=
  [DocumentChild.paragraph ⟨[⟨"Hello world", RunProperty.other⟩]⟩]

/-- The spec's scenario image: 400 x 300 pixels. -/
def img400 : ImageAsset := ⟨"word/media/image1.png", 400, 300⟩

/-- A layout state with 100 mm of vertical space left on the page. -/
def stC3 : LayoutState := { page := 0, y := 100, cmds := [] }

/-- A one-word paragraph: each one drops the cursor by 24 mm (12 for the
run-end flush, 12 for the paragraph gap) with no page-break check. -/
def paraA : DocumentChild := DocumentChild.paragraph ⟨[⟨"a", RunProperty.other⟩]⟩

/-- Twelve one-word paragraphs: enough for the unchecked drops to push
the cursor below the margin. -/
def doc12 : List DocumentChild := List.replicate 12 paraA

/-- A 45-character word of `a`s. -/
def w45a : String := String.mk (List.replicate 45 'a')

/-- A 45-character word of `b`s. -/
def w45b : String := String.mk (List.replicate 45 'b')

/-- A run of two 45-character words: the second word overflows the
80-character budget, forcing one mid-loop flush. -/
def runC2 : TextRun := ⟨w45a ++ " " ++ w45b, RunProperty.other⟩

/-- A document with the single run `runC2`. -/
def docC2 : List DocumentChild := [DocumentChild.paragraph ⟨[runC2]⟩]

/-- Laying out one `paraA` paragraph: one line at the incoming cursor,
cursor dropped by 24 mm, no page-break check anywhere on this path. -/
lemma paraA_step (st : LayoutState) :
    processChild cfg0 st paraA =
      { st with
        y := st.y - 24,
        cmds := st.cmds ++ [Cmd.textLine st.page 20 st.y FontStyle.regular "a "] } := by
  have hs : splitWords "a" = ["a"] := by decide
  have h24 : st.y - 12 - 12 = st.y - 24 := by ring
  norm_num +decide [processChild, paraA, processParagraph, processRun, fontFor, hs,
    processWords, finalFlush, line_height, cfg0, Config.new, List.foldl, h24]

/-- Invariant used for claim C5: emitted pages are non-decreasing and
all of them are at most the current page. -/
def PagesOK (st : LayoutState) : Prop :=
  List.Pairwise (· ≤ ·) (st.cmds.map Cmd.page) ∧
    ∀ c ∈ st.cmds, Cmd.page c ≤ st.page

/-- Appending a command whose page is between the current page and the
new page preserves the invariant. -/
lemma pagesOK_mk_append {st : LayoutState} {c : Cmd} {page : Nat} {y : ℚ}
    (h : PagesOK st) (hc : st.page ≤ Cmd.page c) (hp : Cmd.page c ≤ page) :
    PagesOK ⟨page, y, st.cmds ++ [c]⟩ := by
  obtain ⟨h1, h2⟩ := h
  constructor
  · rw [List.map_append]
    refine List.pairwise_append.2 ⟨h1, List.pairwise_singleton _ _, ?_⟩
    intro a ha b hb
    simp only [List.map_cons, List.map_nil, List.mem_singleton] at hb
    subst hb
    rcases List.mem_map.1 ha with ⟨d, hd, rfl⟩
    exact (h2 d hd).trans hc
  · intro d hd
    rcases List.mem_append.1 hd with hd | hd
    · exact (h2 d hd).trans (hc.trans hp)
    · rw [List.mem_singleton] at hd
      subst hd
      exact hp
/-- Emitting at the current page preserves the invariant. -/
lemma pagesOK_emit_cur {st : LayoutState} {c : Cmd} {y : ℚ}
    (h : PagesOK st) (hc : Cmd.page c = st.page) :
    PagesOK ⟨st.page, y, st.cmds ++ [c]⟩ :=
  pagesOK_mk_append h (le_of_eq hc.symm) (le_of_eq hc)

/-- Keeping the commands while moving to a later-or-equal page preserves
the invariant. -/
lemma pagesOK_same {st : LayoutState} {page : Nat} {y : ℚ}
    (h : PagesOK st) (hpage : st.page ≤ page) :
    PagesOK ⟨page, y, st.cmds⟩ :=
  ⟨h.1, fun c hc => (h.2 c hc).trans hpage⟩

/-- `addPage` preserves the invariant. -/
lemma pagesOK_addPage {cfg : Config} {st : LayoutState} (h : PagesOK st) :
    PagesOK (addPage cfg st) :=
  pagesOK_same h (Nat.le_succ _)

/-- The mid-loop flush preserves the invariant. -/
lemma pagesOK_flushMid {cfg : Config} {font : FontStyle} {line : String}
    {st : LayoutState} (h : PagesOK st) :
    PagesOK (flushMid cfg font line st) :=
  pagesOK_emit_cur h rfl

/-- The page-break check preserves the invariant and never decreases the
page. -/
lemma pagesOK_breakCheck {cfg : Config} {st : LayoutState} (h : PagesOK st) :
    PagesOK (breakCheck cfg st) ∧ st.page ≤ (breakCheck cfg st).page := by
  unfold breakCheck
  by_cases hc : st.y < cfg.margin
  · rw [if_pos hc]
    exact ⟨pagesOK_addPage h, Nat.le_succ _⟩
  · rw [if_neg hc]
    exact ⟨h, le_refl _⟩

/-- The word loop preserves the invariant and never decreases the page. -/
lemma pagesOK_processWords (cfg : Config) (font : FontStyle) :
    ∀ (ws : List String) (line : String) (st : LayoutState), PagesOK st →
      PagesOK (processWords cfg font ws line st).2 ∧
        st.page ≤ (processWords cfg font ws line st).2.page := by
  intro ws
  induction ws with
  | nil => intro line st h; exact ⟨h, le_refl _⟩
  | cons w ws ih =>
    intro line st h
    rw [processWords]
    by_cases hcond : line.length + w.length < 80
    · rw [if_pos hcond]
      exact ih _ _ h
    · rw [if_neg hcond]
      obtain ⟨hb, hbp⟩ := pagesOK_breakCheck (pagesOK_flushMid h)
      obtain ⟨h1, h2⟩ := ih (w ++ " ") (breakCheck cfg (flushMid cfg font line st)) hb
      exact ⟨h1, le_trans hbp h2⟩

/-- The run-end flush preserves the invariant and keeps the page. -/
lemma pagesOK_finalFlush (cfg : Config) (font : FontStyle) (line : String)
    (st : LayoutState) (h : PagesOK st) :
    PagesOK (finalFlush cfg font line st) ∧
      st.page ≤ (finalFlush cfg font line st).page := by
  unfold finalFlush
  by_cases hc : line = ""
  · rw [if_pos hc]
    exact ⟨h, le_refl _⟩
  · rw [if_neg hc]
    exact ⟨pagesOK_emit_cur h rfl, le_refl _⟩

/-- Run processing preserves the invariant and never decreases the page. -/
lemma pagesOK_processRun (cfg : Config) (st : LayoutState) (r : TextRun)
    (h : PagesOK st) :
    PagesOK (processRun cfg st r) ∧ st.page ≤ (processRun cfg st r).page := by
  unfold processRun
  obtain ⟨h1, h2⟩ :=
    pagesOK_processWords cfg (fontFor r.property) (splitWords r.content) "" st h
  obtain ⟨h3, h4⟩ := pagesOK_finalFlush cfg (fontFor r.property)
    (processWords cfg (fontFor r.property) (splitWords r.content) "" st).1 _ h1
  exact ⟨h3, le_trans h2 h4⟩

/-- Fold closure of the invariant. -/
lemma pagesOK_foldl {α : Type} {f : LayoutState → α → LayoutState}
    (hf : ∀ (st : LayoutState) (a : α), PagesOK st →
      PagesOK (f st a) ∧ st.page ≤ (f st a).page) :
    ∀ (l : List α) (st : LayoutState), PagesOK st →
      PagesOK (l.foldl f st) ∧ st.page ≤ (l.foldl f st).page := by
  intro l
  induction l with
  | nil => intro st h; exact ⟨h, le_refl _⟩
  | cons a l ih =>
    intro st h
    rw [List.foldl_cons]
    obtain ⟨h1, h2⟩ := hf st a h
    obtain ⟨h3, h4⟩ := ih (f st a) h1
    exact ⟨h3, le_trans h2 h4⟩

/-- Paragraph processing preserves the invariant and never decreases the
page. -/
lemma pagesOK_processParagraph (cfg : Config) (st : LayoutState) (p : Paragraph)
    (h : PagesOK st) :
    PagesOK (processParagraph cfg st p) ∧
      st.page ≤ (processParagraph cfg st p).page := by
  unfold processParagraph
  obtain ⟨h1, h2⟩ := pagesOK_foldl (fun st r hst => pagesOK_processRun cfg st r hst)
    p.runs st h
  exact ⟨pagesOK_same h1 (le_refl _), h2⟩

/-- Child processing preserves the invariant and never decreases the
page. -/
lemma pagesOK_processChild (cfg : Config) (st : LayoutState) (ch : DocumentChild)
    (h : PagesOK st) :
    PagesOK (processChild cfg st ch) ∧ st.page ≤ (processChild cfg st ch).page := by
  cases ch with
  | paragraph p => exact pagesOK_processParagraph cfg st p h
  | other => exact ⟨h, le_refl _⟩

/-- Image processing appends one command carrying the post-check page. -/
lemma processImage_step (cfg : Config) (st : LayoutState) (img : ImageAsset) :
    ∃ c : Cmd, (processImage cfg st img).cmds = st.cmds ++ [c] ∧
      Cmd.page c = (processImage cfg st img).page ∧
      st.page ≤ (processImage cfg st img).page := by
  by_cases h : st.y < cfg.margin + 50
  · refine ⟨Cmd.imagePlacement (st.page + 1) cfg.margin
      ((cfg.page_height - cfg.margin) -
        (img.height : ℚ) * ((cfg.page_width - 2 * cfg.margin) / (img.width : ℚ)))
      ((cfg.page_width - 2 * cfg.margin) / (img.width : ℚ)) img.name, ?_, ?_, ?_⟩ <;>
      simp [processImage, addPage, h, Cmd.page]
  · refine ⟨Cmd.imagePlacement st.page cfg.margin
      (st.y - (img.height : ℚ) * ((cfg.page_width - 2 * cfg.margin) / (img.width : ℚ)))
      ((cfg.page_width - 2 * cfg.margin) / (img.width : ℚ)) img.name, ?_, ?_, ?_⟩ <;>
      simp [processImage, addPage, h, Cmd.page]

/-- Image processing preserves the invariant and never decreases the
page. -/
lemma pagesOK_processImage (cfg : Config) (st : LayoutState) (img : ImageAsset)
    (h : PagesOK st) :
    PagesOK (processImage cfg st img) ∧ st.page ≤ (processImage cfg st img).page := by
  unfold processImage
  by_cases hc : st.y < cfg.margin + (50 + 0)
  · rw [if_pos hc]
    exact ⟨pagesOK_emit_cur (pagesOK_addPage h) rfl, Nat.le_succ _⟩
  · rw [if_neg hc]
    exact ⟨pagesOK_emit_cur h rfl, le_refl _⟩

/-- The image pass only appends commands, and every appended command is
on a page at least the page the pass started on. -/
lemma image_fold_tail (cfg : Config) :
    ∀ (imgs : List ImageAsset) (st : LayoutState),
      ∃ l : List Cmd, (imgs.foldl (processImage cfg) st).cmds = st.cmds ++ l ∧
        ∀ c ∈ l, st.page ≤ Cmd.page c := by
  intro imgs
  induction imgs with
  | nil => intro st; exact ⟨[], by simp, by simp⟩
  | cons img imgs ih =>
    intro st
    obtain ⟨c0, hc0, hc0p, hstep⟩ := processImage_step cfg st img
    obtain ⟨l, hl, hp⟩ := ih (processImage cfg st img)
    refine ⟨c0 :: l, ?_, ?_⟩
    · rw [List.foldl_cons, hl, hc0]
      simp
    · intro c hc
      rcases List.mem_cons.1 hc with rfl | hc
      · rw [hc0p]
        exact hstep
      · exact le_trans hstep (hp c hc)

/-- The initial state satisfies the invariant. -/
lemma pagesOK_initState (cfg : Config) : PagesOK (initState cfg) := by
  constructor <;> simp [initState]

/-- Unrolling of the `extract_images` fold against the spec-side
filter/filterMap description, generalized over the accumulator. -/
lemma extract_go {α : Type} (decode : List Nat → Option α) :
    ∀ (entries : List ZipEntry) (acc : List (String × α)),
      entries.foldl (extractStep decode) acc =
        acc ++ extract_images_spec decode entries := by
  intro entries
  induction entries with
  | nil => intro acc; simp [extract_images_spec]
  | cons e es ih =>
    intro acc
    by_cases hp : e.name.startsWith "word/media"
    · cases hd : decode e.bytes with
      | none => simp [extractStep, extract_images_spec, hp, hd, ih]
      | some img => simp [extractStep, extract_images_spec, hp, hd, ih]
    · simp [extractStep, extract_images_spec, hp, ih]

section Claims

/-- Claim C9: image extraction keeps exactly the archive entries whose
names start with the `word/media` prefix, in archive order, and silently
drops any entry whose bytes fail to decode, continuing with the rest. -/
theorem c9_extract_images_filter :
    ∀ {α : Type} (decode : List Nat → Option α) (entries : List ZipEntry),
      extract_images decode entries = extract_images_spec decode entries := by
  intro α decode entries
  simpa using extract_go decode entries []

/-- Claim C8: any argument count other than two positional arguments
(three entries of `argv` counting the program name) yields the usage
outcome, and with the right count a missing input file or one without
the `.docx` extension yields the invalid-input outcome, both before any
conversion work. -/
theorem c8_cli_validation :
    (∀ (args : List String) (pathExists : String → Bool),
        args.length ≠ 3 → mainCheck args pathExists = MainOutcome.usage) ∧
    (∀ (prog input output : String) (pathExists : String → Bool),
        pathExists input = false ∨ ends_with input ".docx" = false →
        mainCheck [prog, input, output] pathExists = MainOutcome.invalidInput) := by
  constructor
  · intro args pathExists h
    simp [mainCheck, h]
  · intro prog input output pathExists h
    rcases h with h | h <;> simp [mainCheck, Config.new, h]

/-- Witness for C8 at concrete inputs. -/
theorem c8_cli_validation_witness :
    mainCheck ["prog"] (fun _ => true) = MainOutcome.usage ∧
    mainCheck ["prog", "notes.txt", "out.pdf"] (fun _ => true) =
      MainOutcome.invalidInput := by
  constructor
  · exact c8_cli_validation.1 ["prog"] (fun _ => true) (by decide)
  · exact c8_cli_validation.2 "prog" "notes.txt" "out.pdf" (fun _ => true)
      (Or.inr (by decide))

/-- Claim C3, counterexample: with 100 mm left and a 400 x 300 image
(scaled height 127.5 mm), the claimed condition
`y - scaled_height < margin` holds, yet no new page is allocated: the
code compares `y` against the fixed `margin + 50` threshold instead. -/
theorem c3_scaled_height_check_counterexample :
    stC3.y - image_scaled_height cfg0 img400 < cfg0.margin ∧
    (processImage cfg0 stC3 img400).page = stC3.page := by
  constructor
  · norm_num [stC3, image_scaled_height, image_scale, printable_width, img400,
      cfg0, Config.new]
  · norm_num [processImage, addPage, stC3, img400, cfg0, Config.new]

/-- Claim C3 (amended): the image page-break decision compares the
cursor against the fixed threshold `margin + 50` (not the scaled
height): a new page is allocated iff `y < margin + 50`, and the check
happens before the placement is emitted (the emitted command carries the
post-check page and cursor). -/
theorem c3_fixed_threshold_check :
    ∀ (cfg : Config) (st : LayoutState) (img : ImageAsset),
      ((processImage cfg st img).page =
        if st.y < cfg.margin + 50 then st.page + 1 else st.page) ∧
      ((processImage cfg st img).cmds = st.cmds ++
        [Cmd.imagePlacement (if st.y < cfg.margin + 50 then st.page + 1 else st.page)
          cfg.margin (postCheckY cfg st - image_scaled_height cfg img)
          (image_scale cfg img) img.name]) := by
  intro cfg st img
  by_cases h : st.y < cfg.margin + 50
  · constructor <;>
      simp [processImage, addPage, postCheckY, image_scaled_height, image_scale,
        printable_width, h]
  · constructor <;>
      simp [processImage, addPage, postCheckY, image_scaled_height, image_scale,
        printable_width, h]

/-- Claim C4: every image placement uses the uniform scale
`printable_width / pixel_width` (independent of the cursor: the scale
below does not mention `st`), is anchored at
`(margin, y - scaled_height)` for the post-check cursor `y`, and the
cursor then advances by `scaled_height + 10`. -/
theorem c4_image_scale_placement_advance :
    ∀ (cfg : Config) (st : LayoutState) (img : ImageAsset),
      ((processImage cfg st img).cmds = st.cmds ++
        [Cmd.imagePlacement (processImage cfg st img).page cfg.margin
          (postCheckY cfg st - image_scaled_height cfg img)
          (image_scale cfg img) img.name]) ∧
      ((processImage cfg st img).y =
        postCheckY cfg st - (image_scaled_height cfg img + 10)) := by
  intro cfg st img
  by_cases h : st.y < cfg.margin + 50
  · constructor <;>
      simp [processImage, addPage, postCheckY, image_scaled_height, image_scale,
        printable_width, h]
  · constructor <;>
      simp [processImage, addPage, postCheckY, image_scaled_height, image_scale,
        printable_width, h]

/-- Claim C6, counterexample: a paragraph run `"Hi"` emits exactly one
line (the run-end flush) and that flush moves the cursor from 277 down
to 265, so the run-end flush does advance the cursor, contrary to the
claim. -/
theorem c6_final_flush_counterexample :
    (processRun cfg0 (initState cfg0) ⟨"Hi", RunProperty.other⟩).cmds.length = 1 ∧
    (processRun cfg0 (initState cfg0) ⟨"Hi", RunProperty.other⟩).y ≠
      (initState cfg0).y := by
  have hs : splitWords "Hi" = ["Hi"] := by decide
  constructor <;>
    norm_num +decide [processRun, processWords, finalFlush, hs, fontFor, initState,
      cfg0, Config.new, line_height]

/-- Claim C6 (amended): the run-end flush of a non-empty buffer emits at
the current cursor and advances the cursor by `line_height` itself; the
paragraph layer then adds exactly one more `line_height` advance after
all runs, to separate paragraphs. -/
theorem c6_final_flush_advances :
    (∀ (cfg : Config) (font : FontStyle) (line : String) (st : LayoutState),
        line ≠ "" →
        finalFlush cfg font line st =
          { st with
            cmds := st.cmds ++ [Cmd.textLine st.page cfg.margin st.y font line],
            y := st.y - line_height }) ∧
    (∀ (cfg : Config) (st : LayoutState) (runs : List TextRun),
        processParagraph cfg st ⟨runs⟩ =
          { runs.foldl (processRun cfg) st with
            y := (runs.foldl (processRun cfg) st).y - line_height }) := by
  constructor
  · intro cfg font line st h
    simp [finalFlush, h]
  · intro cfg st runs
    rfl

/-- Claim C5: pages of the emitted command sequence are non-decreasing;
each page break (the `addPage` block, shared by both break sites)
increments the page by exactly 1 and resets the cursor to
`height - margin`; and every command appended by the image pass sits on
a page at least the last page used by the text pass (images never
restart at page 0). -/
theorem c5_page_index_monotone :
    ∀ (cfg : Config) (children : List DocumentChild) (images : List ImageAsset),
      List.Pairwise (· ≤ ·) ((create_pdf cfg children images).map Cmd.page) ∧
      (∀ st : LayoutState,
        (addPage cfg st).page = st.page + 1 ∧
        (addPage cfg st).y = cfg.page_height - cfg.margin) ∧
      (∀ c ∈ (create_pdf cfg children images).drop
          ((textState cfg children).cmds.length),
        (textState cfg children).page ≤ Cmd.page c) := by
  intro cfg children images
  have hText : PagesOK (textState cfg children) :=
    (pagesOK_foldl (fun st ch hst => pagesOK_processChild cfg st ch hst) children
      (initState cfg) (pagesOK_initState cfg)).1
  refine ⟨?_, fun st => ⟨rfl, rfl⟩, ?_⟩
  · have h2 := pagesOK_foldl (fun st img hst => pagesOK_processImage cfg st img hst)
      images (textState cfg children) hText
    exact h2.1.1
  · obtain ⟨l, hl, hp⟩ := image_fold_tail cfg images (textState cfg children)
    intro c hc
    have he : create_pdf cfg children images = (textState cfg children).cmds ++ l := hl
    rw [he, List.drop_left] at hc
    exact hp c hc

/-- Witness for C5 at a concrete document: the image command emitted
after the `helloDoc` text sits on the text pass's final page. -/
theorem c5_page_index_monotone_witness :
    (textState cfg0 helloDoc).page ≤
      Cmd.page (Cmd.imagePlacement 0 20 (251/2) (17/40) "word/media/image1.png") := by
  have hs : splitWords "Hello world" = ["Hello", "world"] := by decide
  have hmem : Cmd.imagePlacement 0 20 (251/2) (17/40) "word/media/image1.png" ∈
      (create_pdf cfg0 helloDoc [img400]).drop
        ((textState cfg0 helloDoc).cmds.length) := by
    norm_num +decide [create_pdf, textState, initState, processChild, processParagraph,
      processRun, fontFor, hs, processWords, finalFlush, line_height, cfg0, Config.new,
      helloDoc, List.foldl, processImage, addPage, img400, List.drop]
  exact (c5_page_index_monotone cfg0 helloDoc [img400]).2.2 _ hmem

/-- Claim C1: the code emits a text line below the bottom margin.  Each
`paraA` paragraph drops the cursor 24 mm with no check (the run-end
flush and paragraph gap are unchecked, and the word-loop check runs
after emission), so the twelfth paragraph's line lands at
`y = 277 - 11 * 24 = 13 < 20`. -/
theorem c1_text_below_margin_eval :
    Cmd.textLine 0 20 13 FontStyle.regular "a " ∈ create_pdf cfg0 doc12 [] ∧
    ¬ (cfg0.margin ≤ (13 : ℚ)) := by
  constructor
  · have hinit : initState cfg0 = { page := 0, y := 277, cmds := [] } := by
      norm_num [initState, cfg0, Config.new]
    norm_num [create_pdf, textState, doc12, List.replicate, List.foldl, paraA_step,
      hinit]
  · norm_num [cfg0, Config.new]

/-- Claim C2: the mid-loop flush is emitted at
`page_height - y_position`, not at the cursor position.  With the cursor
at 277, the first (wrapped) line of `runC2` lands at `y = 297 - 277 =
20`, below the later run-end flush at 265 — the flipped coordinate, not
the cursor position the claim requires. -/
theorem c2_midrun_flush_flipped_eval :
    create_pdf cfg0 docC2 [] =
      [Cmd.textLine 0 20 20 FontStyle.regular (w45a ++ " "),
       Cmd.textLine 0 20 265 FontStyle.regular (w45b ++ " ")] ∧
    (20 : ℚ) = cfg0.page_height - 277 ∧ (20 : ℚ) < 265 := by
  refine ⟨?_, by norm_num [cfg0, Config.new], by norm_num⟩
  have hs : splitWords (w45a ++ " " ++ w45b) = [w45a, w45b] := by decide
  norm_num +decide [create_pdf, textState, initState, processChild, processParagraph,
    processRun, fontFor, hs, processWords, flushMid, breakCheck, addPage, finalFlush,
    line_height, cfg0, Config.new, docC2, runC2, List.foldl]

/-- Witness for C6 (amended) at a concrete flush. -/
theorem c6_final_flush_advances_witness :
    finalFlush cfg0 FontStyle.regular "Hi " (initState cfg0) =
      { initState cfg0 with
        cmds := (initState cfg0).cmds ++
          [Cmd.textLine (initState cfg0).page cfg0.margin (initState cfg0).y
            FontStyle.regular "Hi "],
        y := (initState cfg0).y - line_height } :=
  c6_final_flush_advances.1 cfg0 FontStyle.regular "Hi " (initState cfg0) (by decide)

/-- Claim C7: with geometry `{210, 297, 20}` and a single paragraph whose
one run is `"Hello world"`, the layout emits exactly one text line, at
`(20, 277)` with the regular font and text `"Hello world "`, on page 0. -/
theorem c7_hello_world_scenario :
    create_pdf cfg0 helloDoc [] =
      [Cmd.textLine 0 20 277 FontStyle.regular "Hello world "] := by
  have hs : splitWords "Hello world" = ["Hello", "world"] := by decide
  norm_num +decide [create_pdf, textState, initState, processChild, processParagraph,
    processRun, fontFor, hs, processWords, finalFlush, line_height, cfg0,
    Config.new, helloDoc, List.foldl]

/-- Claim C10: the page geometry is fixed at 210 x 297 with margin 20 for
every pair of command-line paths, satisfies the `PageGeometry` invariant
(width and height both exceed twice the margin), and the arguments only
set the input and output paths. -/
theorem c10_fixed_geometry :
    ∀ a b : String,
      (Config.new a b).page_width = 210 ∧
      (Config.new a b).page_height = 297 ∧
      (Config.new a b).margin = 20 ∧
      2 * (Config.new a b).margin < (Config.new a b).page_width ∧
      2 * (Config.new a b).margin < (Config.new a b).page_height ∧
      (Config.new a b).input_path = a ∧
      (Config.new a b).output_path = b := by
  intro a b
  refine ⟨rfl, rfl, rfl, ?_, ?_, rfl, rfl⟩ <;> norm_num [Config.new]

end Claims

end WordPdf
